import Mathlib

/-!
# Verification of the voice-arkanoid calibration engine and game physics

Shallow embedding of the core logic of the `voice-arkanoid` repository:
JavaScript numbers are modelled as rationals (`ℚ`), JS arrays as `List`,
and the in-place effects of the reference functions as explicit state
passing.  The definitions mirror `calibrationTypes.ts`, `voiceControl.ts`
(`VoiceControl.getMaxAmplitudeFreq`) and `Arkanoid.tsx`
(`updatePaddlePosition`, `updateBallPosition`, `checkBrickCollision`,
`generateBricks` and the game loop).
-/

namespace VoiceArkanoid

/-! ## Calibration data model (`calibrationTypes.ts`) -/

/-- `CalibrationResult` from `calibrationTypes.ts`: the derived envelope. -/
structure CalibrationResult where
  minFreq : ℚ
  maxFreq : ℚ
  voiceAmplitude : ℚ
  noiseAmplitude : ℚ
  amplitudeThreshold : ℚ
deriving DecidableEq, Repr

/-- `isCalibrationResultComplete` (non-null case): all five fields strictly
positive. -/
def isCalibrationResultComplete (result : CalibrationResult) : Bool :=
  decide (result.minFreq > 0) && decide (result.maxFreq > 0) &&
    decide (result.voiceAmplitude > 0) && decide (result.noiseAmplitude > 0) &&
    decide (result.amplitudeThreshold > 0)

/-- `CalibrationState`: the three growable sample sequences. -/
structure CalibrationState where
  freqs : List ℚ
  voiceAmplitudes : List ℚ
  noiseAmplitudes : List ℚ
deriving DecidableEq, Repr

/-- Ascending numeric sort, as `array.sort((a, b) => a - b)` does. -/
def sortQ (l : List ℚ) : List ℚ :=
  List.insertionSort (· ≤ ·) l

/-- `Math.floor(n / 2)`: the lower-middle median index. -/
def medianIdx (n : ℕ) : ℕ :=
  Nat.floor ((n : ℚ) / 2)

/-- `Math.floor(n * 0.1)`: the 10th-percentile (nearest-rank) index. -/
def p10Idx (n : ℕ) : ℕ :=
  Nat.floor ((n : ℚ) * (1 / 10))

/-- `Math.floor(n * 0.9)`: the 90th-percentile (nearest-rank) index. -/
def p90Idx (n : ℕ) : ℕ :=
  Nat.floor ((n : ℚ) * (9 / 10))

/-- `evaluateState` begins by sorting the three arrays in place; this is the
state after those in-place sorts. -/
def sortCalibrationState (s : CalibrationState) : CalibrationState :=
  { freqs := sortQ s.freqs
    voiceAmplitudes := sortQ s.voiceAmplitudes
    noiseAmplitudes := sortQ s.noiseAmplitudes }

/-- The value returned by `evaluateState` in `calibrationTypes.ts`. -/
def evaluateState (s : CalibrationState) : CalibrationResult :=
  let st := sortCalibrationState s
  let voiceAmplitude : ℚ :=
    if st.voiceAmplitudes.length = 0 then 0
    else st.voiceAmplitudes.getD (medianIdx st.voiceAmplitudes.length) 0
  let noiseAmplitude : ℚ :=
    if st.noiseAmplitudes.length = 0 then 0
    else st.noiseAmplitudes.getD (medianIdx st.noiseAmplitudes.length) 0
  { minFreq :=
      if st.freqs.length = 0 then 0
      else st.freqs.getD (p10Idx st.freqs.length) 0
    maxFreq :=
      if st.freqs.length = 0 then 0
      else st.freqs.getD (p90Idx st.freqs.length) 0
    voiceAmplitude := voiceAmplitude
    noiseAmplitude := noiseAmplitude
    amplitudeThreshold := (voiceAmplitude + noiseAmplitude) / 2 }

/-- The full effect of calling `evaluateState` on a mutable state: the
returned result together with the state left behind by the in-place sorts. -/
def evaluateStateM (s : CalibrationState) : CalibrationResult × CalibrationState :=
  (evaluateState s, sortCalibrationState s)

/-! ### Index and sorting facts used throughout -/

theorem medianIdx_eq (n : ℕ) : medianIdx n = n / 2 := by
  rw [medianIdx, show ((n : ℚ) / 2) = (n : ℚ) / (2 : ℕ) by norm_num,
    Nat.floor_div_nat, Nat.floor_natCast]

theorem p10Idx_eq (n : ℕ) : p10Idx n = n / 10 := by
  rw [p10Idx, show ((n : ℚ) * (1 / 10)) = (n : ℚ) / (10 : ℕ) by push_cast; ring,
    Nat.floor_div_nat, Nat.floor_natCast]

theorem p90Idx_eq (n : ℕ) : p90Idx n = 9 * n / 10 := by
  rw [p90Idx, show ((n : ℚ) * (9 / 10)) = ((9 * n : ℕ) : ℚ) / (10 : ℕ) by
      push_cast; ring,
    Nat.floor_div_nat, Nat.floor_natCast]

theorem sortQ_sorted (l : List ℚ) : List.Sorted (· ≤ ·) (sortQ l) :=
  List.sorted_insertionSort (· ≤ ·) l

theorem sortQ_length (l : List ℚ) : (sortQ l).length = l.length :=
  List.length_insertionSort (· ≤ ·) l

theorem sortQ_idem (l : List ℚ) : sortQ (sortQ l) = sortQ l :=
  List.Sorted.insertionSort_eq (sortQ_sorted l)

theorem sortCalibrationState_idem (s : CalibrationState) :
    sortCalibrationState (sortCalibrationState s) = sortCalibrationState s := by
  simp [sortCalibrationState, sortQ_idem]

/-! ## Claims about `evaluateState` -/

/-- C1: `evaluateState` returns `minFreq` equal to the element at index
`⌊n * 0.1⌋` and `maxFreq` equal to the element at index `⌊n * 0.9⌋` of the
ascending-sorted `freqs` (nearest-rank, no interpolation), and `0` for both
when the sequence is empty; on the 10-element sorted input
`[100, 150, 200, ..., 1000]` it returns `minFreq = 150` (index 1) and
`maxFreq = 1000` (index 9). -/
theorem evaluateState_percentiles (s : CalibrationState) :
    (evaluateState s).minFreq =
      (if s.freqs = [] then 0
       else (sortQ s.freqs).getD (Nat.floor ((s.freqs.length : ℚ) * (1 / 10))) 0)
  ∧ (evaluateState s).maxFreq =
      (if s.freqs = [] then 0
       else (sortQ s.freqs).getD (Nat.floor ((s.freqs.length : ℚ) * (9 / 10))) 0)
  ∧ (evaluateState
        ⟨[100, 150, 200, 250, 300, 350, 400, 450, 500, 1000], [], []⟩).minFreq = 150
  ∧ (evaluateState
        ⟨[100, 150, 200, 250, 300, 350, 400, 450, 500, 1000], [], []⟩).maxFreq = 1000 := by
  refine ⟨?_, ?_, ?_, ?_⟩
  · by_cases h : s.freqs = [] <;>
      simp [evaluateState, sortCalibrationState, h, sortQ_length, p10Idx,
        List.length_eq_zero]
  · by_cases h : s.freqs = [] <;>
      simp [evaluateState, sortCalibrationState, h, sortQ_length, p90Idx,
        List.length_eq_zero]
  · norm_num [evaluateState, sortCalibrationState, sortQ, p10Idx_eq, p90Idx_eq,
      List.insertionSort, List.orderedInsert]
  · norm_num [evaluateState, sortCalibrationState, sortQ, p10Idx_eq, p90Idx_eq,
      List.insertionSort, List.orderedInsert]

/-- C2: `evaluateState` computes `voiceAmplitude` and `noiseAmplitude` as the
element at index `⌊n / 2⌋` of the respective ascending-sorted sequence (`0`
when empty), `amplitudeThreshold` as their average, the result is complete
iff all five fields are strictly positive, and the state with
`voiceAmplitudes = [10, 20, 30]` and the other two sequences empty evaluates
to `⟨0, 0, 20, 0, 10⟩`, which is incomplete. -/
theorem evaluateState_medians_threshold_complete (s : CalibrationState) :
    (evaluateState s).voiceAmplitude =
      (if s.voiceAmplitudes = [] then 0
       else (sortQ s.voiceAmplitudes).getD
         (Nat.floor ((s.voiceAmplitudes.length : ℚ) / 2)) 0)
  ∧ (evaluateState s).noiseAmplitude =
      (if s.noiseAmplitudes = [] then 0
       else (sortQ s.noiseAmplitudes).getD
         (Nat.floor ((s.noiseAmplitudes.length : ℚ) / 2)) 0)
  ∧ (evaluateState s).amplitudeThreshold =
      ((evaluateState s).voiceAmplitude + (evaluateState s).noiseAmplitude) / 2
  ∧ (∀ r : CalibrationResult,
      isCalibrationResultComplete r = true ↔
        0 < r.minFreq ∧ 0 < r.maxFreq ∧ 0 < r.voiceAmplitude ∧
          0 < r.noiseAmplitude ∧ 0 < r.amplitudeThreshold)
  ∧ evaluateState ⟨[], [10, 20, 30], []⟩ = ⟨0, 0, 20, 0, 10⟩
  ∧ isCalibrationResultComplete (evaluateState ⟨[], [10, 20, 30], []⟩) = false := by
  refine ⟨?_, ?_, ?_, ?_, ?_, ?_⟩
  · by_cases h : s.voiceAmplitudes = [] <;>
      simp [evaluateState, sortCalibrationState, h, sortQ_length, medianIdx,
        List.length_eq_zero]
  · by_cases h : s.noiseAmplitudes = [] <;>
      simp [evaluateState, sortCalibrationState, h, sortQ_length, medianIdx,
        List.length_eq_zero]
  · simp [evaluateState]
  · intro r
    simp [isCalibrationResultComplete, and_assoc]
  · norm_num [evaluateState, sortCalibrationState, sortQ, medianIdx_eq,
      List.insertionSort, List.orderedInsert]
  · norm_num [evaluateState, sortCalibrationState, sortQ, medianIdx_eq,
      isCalibrationResultComplete, List.insertionSort, List.orderedInsert]

/-- C9: `evaluateState` is idempotent.  The JS function mutates its argument
(the three arrays are sorted in place) and returns the derived result;
calling it a second time on the state left behind by the first call yields
the same result (and the same state). -/
theorem evaluateState_idempotent (s : CalibrationState) :
    evaluateStateM (evaluateStateM s).2 = evaluateStateM s := by
  have hsort : evaluateState (sortCalibrationState s) = evaluateState s := by
    unfold evaluateState
    simp [sortCalibrationState, sortQ_idem]
  simp [evaluateStateM, hsort, sortCalibrationState_idem]

/-- C10: the calibrated frequency band is always well-ordered: for every
state, `evaluateState` returns `minFreq ≤ maxFreq`. -/
theorem evaluateState_minFreq_le_maxFreq (s : CalibrationState) :
    (evaluateState s).minFreq ≤ (evaluateState s).maxFreq := by
  by_cases h : (sortQ s.freqs).length = 0
  · simp [evaluateState, sortCalibrationState, h]
  · have hn : 0 < (sortQ s.freqs).length := Nat.pos_of_ne_zero h
    have hn1 : (1 : ℚ) ≤ ((sortQ s.freqs).length : ℚ) := by exact_mod_cast hn
    have h10 : p10Idx (sortQ s.freqs).length ≤ p90Idx (sortQ s.freqs).length := by
      apply Nat.floor_le_floor
      nlinarith
    have h90 : p90Idx (sortQ s.freqs).length < (sortQ s.freqs).length := by
      rw [p90Idx, Nat.floor_lt (by positivity)]
      nlinarith
    have h10lt : p10Idx (sortQ s.freqs).length < (sortQ s.freqs).length :=
      lt_of_le_of_lt h10 h90
    have hget := List.Sorted.rel_get_of_le (sortQ_sorted s.freqs)
      (a := ⟨p10Idx (sortQ s.freqs).length, h10lt⟩)
      (b := ⟨p90Idx (sortQ s.freqs).length, h90⟩) h10
    simp only [evaluateState, sortCalibrationState, h, if_neg h]
    simpa [List.getD_eq_getElem?_getD, List.get?_eq_get, h10lt, h90] using hget

/-! ## Control Mapper (`updatePaddlePosition` in `Arkanoid.tsx`) -/

/-- `CANVAS_WIDTH` in `Arkanoid.tsx`. -/
def CANVAS_WIDTH : ℚ := 300

/-- `CANVAS_HEIGHT` in `Arkanoid.tsx`. -/
def CANVAS_HEIGHT : ℚ := 300

/-- `PADDLE_WIDTH = CANVAS_WIDTH / 4`. -/
def PADDLE_WIDTH : ℚ := CANVAS_WIDTH / 4

/-- `PADDLE_HEIGHT = CANVAS_HEIGHT / 60`. -/
def PADDLE_HEIGHT : ℚ := CANVAS_HEIGHT / 60

/-- `BALL_RADIUS = PADDLE_HEIGHT`. -/
def BALL_RADIUS : ℚ := PADDLE_HEIGHT

/-- A dominant frequency/amplitude pair extracted from a spectrum. -/
structure Peak where
  frequency : ℚ
  amplitude : ℚ
deriving DecidableEq, Repr

/-- JS division of finite numbers, tracking finiteness: a JS number is
modelled as `some q` when finite and `none` when non-finite (NaN or
±Infinity); dividing a finite number by zero yields NaN or ±Infinity. -/
def jsDiv (a b : ℚ) : Option ℚ :=
  if b = 0 then none else some (a / b)

/-- The body of `updatePaddlePosition` after the peak has been sampled
(lines 70–75 of `Arkanoid.tsx`): if the peak amplitude exceeds the
threshold, the paddle x becomes `normalized * (CANVAS_WIDTH - PADDLE_WIDTH)`
where `normalized = (frequency - minFreq) / (maxFreq - minFreq)`; otherwise
the paddle keeps its previous position.  The paddle position is a JS number
(`Option ℚ`): multiplying a non-finite `normalized` by the positive constant
`CANVAS_WIDTH - PADDLE_WIDTH` stays non-finite. -/
def updatePaddlePosition (minFreq maxFreq amplitudeThreshold : ℚ) (peak : Peak)
    (paddleX : Option ℚ) : Option ℚ :=
  if peak.amplitude > amplitudeThreshold then
    (jsDiv (peak.frequency - minFreq) (maxFreq - minFreq)).map
      (fun normalizedPosition => normalizedPosition * (CANVAS_WIDTH - PADDLE_WIDTH))
  else paddleX

/-- C3: the Control Mapper leaves the paddle position unchanged whenever the
peak amplitude is not strictly greater than the threshold; when the gate is
open (and the band is non-degenerate, so that the division is defined) it
sets `paddleX = ((frequency - minFreq) / (maxFreq - minFreq)) *
(CANVAS_WIDTH - PADDLE_WIDTH)` with no clamping; with envelope
`{minFreq := 500, maxFreq := 1500, amplitudeThreshold := 50}` and peak
`{frequency := 1000, amplitude := 40}` the paddle keeps its prior value. -/
theorem updatePaddlePosition_gate (minFreq maxFreq amplitudeThreshold : ℚ)
    (peak : Peak) (x : Option ℚ) :
    (peak.amplitude ≤ amplitudeThreshold →
      updatePaddlePosition minFreq maxFreq amplitudeThreshold peak x = x)
  ∧ (peak.amplitude > amplitudeThreshold → maxFreq ≠ minFreq →
      updatePaddlePosition minFreq maxFreq amplitudeThreshold peak x =
        some (((peak.frequency - minFreq) / (maxFreq - minFreq)) *
          (CANVAS_WIDTH - PADDLE_WIDTH)))
  ∧ updatePaddlePosition 500 1500 50 ⟨1000, 40⟩ x = x := by
  refine ⟨?_, ?_, ?_⟩
  · intro h
    simp [updatePaddlePosition, not_lt.mpr h]
  · intro h hne
    have hz : maxFreq - minFreq ≠ 0 := sub_ne_zero.mpr hne
    simp [updatePaddlePosition, h, jsDiv, hz]
  · norm_num [updatePaddlePosition]

/-- Witness for C3 at concrete inputs: a gated-open peak at 1000 Hz inside
the band [500, 1500] lands at `((1000 - 500) / (1500 - 500)) * 225 = 225 / 2`,
and the below-threshold peak of the spec example leaves the paddle at its
prior position. -/
theorem updatePaddlePosition_gate_witness :
    updatePaddlePosition 500 1500 50 ⟨1000, 60⟩ (some 7) = some (225 / 2)
  ∧ updatePaddlePosition 500 1500 50 ⟨1000, 40⟩ (some 7) = some 7 := by
  constructor
  · have h := (updatePaddlePosition_gate 500 1500 50 ⟨1000, 60⟩ (some 7)).2.1
      (by norm_num) (by norm_num)
    rw [h]
    norm_num [CANVAS_WIDTH, PADDLE_WIDTH]
  · exact (updatePaddlePosition_gate 500 1500 50 ⟨1000, 40⟩ (some 7)).2.2

/-- C4 (code bug): when `maxFreq = minFreq` and the gate is open, the code
divides by zero, so the paddle position becomes non-finite (JS NaN or
±Infinity, modelled as `none`) instead of the spec's defined "no movement"
degenerate case. -/
theorem updatePaddlePosition_degenerate_nonfinite (f amplitudeThreshold : ℚ)
    (peak : Peak) (x : Option ℚ) (h : peak.amplitude > amplitudeThreshold) :
    updatePaddlePosition f f amplitudeThreshold peak x = none := by
  simp [updatePaddlePosition, h, jsDiv]

/-- Witness for C4: with envelope `{minFreq := 500, maxFreq := 500,
amplitudeThreshold := 50}` and peak `{frequency := 700, amplitude := 60}`,
the paddle position after the update is non-finite, not the prior `some 7`. -/
theorem updatePaddlePosition_degenerate_nonfinite_witness :
    updatePaddlePosition 500 500 50 ⟨700, 60⟩ (some 7) = none ∧
      (none : Option ℚ) ≠ some 7 := by
  exact ⟨updatePaddlePosition_degenerate_nonfinite 500 50 ⟨700, 60⟩ (some 7)
    (by norm_num), by simp⟩

/-! ## Peak Extractor (`VoiceControl.getMaxAmplitudeFreq`) -/

/-- The frequency of bin `i`: `i * sampleRate / fftSize`, with
`sampleRate / fftSize` abstracted as `step` (`frequencyPerDataPoint`). -/
def binFreq (step : ℚ) (i : ℕ) : ℚ := i * step

/-- The window test of `getMaxAmplitudeFreq`:
`(minFreq === null || frequency >= minFreq) && (maxFreq === null ||
frequency <= maxFreq)`. -/
def freqInWindow (minFreq maxFreq : Option ℚ) (f : ℚ) : Bool :=
  (match minFreq with
   | none => true
   | some m => decide (f ≥ m)) &&
  (match maxFreq with
   | none => true
   | some m => decide (f ≤ m))

/-- The scan loop of `getMaxAmplitudeFreq`: walk the spectrum from bin `i`
carrying the running `(maxFrequency, maxAmplitude)` pair; a bin replaces the
running pair iff it is inside the window and its amplitude is strictly
greater than the running maximum. -/
def getMaxAmplitudeFreqGo (step : ℚ) (minFreq maxFreq : Option ℚ) :
    ℕ → List ℚ → ℚ → ℚ → ℚ × ℚ
  | _, [], maxFrequency, maxAmplitude => (maxFrequency, maxAmplitude)
  | i, a :: rest, maxFrequency, maxAmplitude =>
    if freqInWindow minFreq maxFreq (binFreq step i) && decide (a > maxAmplitude) then
      getMaxAmplitudeFreqGo step minFreq maxFreq (i + 1) rest (binFreq step i) a
    else
      getMaxAmplitudeFreqGo step minFreq maxFreq (i + 1) rest maxFrequency maxAmplitude

/-- `VoiceControl.getMaxAmplitudeFreq`: both running values start at `0`. -/
def getMaxAmplitudeFreq (data : List ℚ) (step : ℚ)
    (minFreq maxFreq : Option ℚ) : Peak :=
  { frequency := (getMaxAmplitudeFreqGo step minFreq maxFreq 0 data 0 0).1
    amplitude := (getMaxAmplitudeFreqGo step minFreq maxFreq 0 data 0 0).2 }

/-- Invariant relating the scan loop's result `r` to the suffix `rest`
starting at global bin index `i` and the carried pair `(mf, ma)`: the result
amplitude dominates the carry and every in-window suffix amplitude, and the
result either is exactly the carry or comes from the first in-window suffix
bin attaining the strictly larger maximum. -/
def GoSpec (step : ℚ) (mF MF : Option ℚ) (i : ℕ) (rest : List ℚ)
    (mf ma : ℚ) (r : ℚ × ℚ) : Prop :=
  ma ≤ r.2
  ∧ (∀ j, j < rest.length → freqInWindow mF MF (binFreq step (i + j)) = true →
      rest.getD j 0 ≤ r.2)
  ∧ (r = (mf, ma)
     ∨ ∃ j, j < rest.length
         ∧ freqInWindow mF MF (binFreq step (i + j)) = true
         ∧ rest.getD j 0 = r.2
         ∧ r.1 = binFreq step (i + j)
         ∧ ma < r.2
         ∧ ∀ j', j' < j → freqInWindow mF MF (binFreq step (i + j')) = true →
             rest.getD j' 0 < r.2)

theorem getMaxAmplitudeFreqGo_spec (step : ℚ) (mF MF : Option ℚ)
    (rest : List ℚ) : ∀ (i : ℕ) (mf ma : ℚ),
    GoSpec step mF MF i rest mf ma (getMaxAmplitudeFreqGo step mF MF i rest mf ma) := by
  induction rest with
  | nil =>
    intro i mf ma
    refine ⟨le_refl _, ?_, Or.inl rfl⟩
    intro j hj
    simp at hj
  | cons a rest ih =>
    intro i mf ma
    by_cases hc :
        (freqInWindow mF MF (binFreq step i) && decide (a > ma)) = true
    · have hwin : freqInWindow mF MF (binFreq step i) = true :=
        (Bool.and_eq_true _ _).mp hc |>.1
      have hgt : a > ma := by
        have := (Bool.and_eq_true _ _).mp hc |>.2
        exact of_decide_eq_true this
      have hr : getMaxAmplitudeFreqGo step mF MF i (a :: rest) mf ma =
          getMaxAmplitudeFreqGo step mF MF (i + 1) rest (binFreq step i) a := by
        simp only [getMaxAmplitudeFreqGo]
        exact if_pos hc
      obtain ⟨ih1, ih2, ih3⟩ := ih (i + 1) (binFreq step i) a
      rw [hr]
      refine ⟨le_of_lt (lt_of_lt_of_le hgt ih1), ?_, ?_⟩
      · intro j hj hw
        match j with
        | 0 => simpa using ih1
        | j + 1 =>
          have hidx : i + (j + 1) = (i + 1) + j := by omega
          rw [hidx] at hw
          simpa using ih2 j (by simpa using hj) hw
      · rcases ih3 with heq | ⟨j, hj, hw, hval, hfreq, hlt, hstrict⟩
        · refine Or.inr ⟨0, by simp, by simpa using hwin, ?_, ?_, ?_, ?_⟩
          · simp [heq]
          · simp [heq]
          · simp [heq, hgt]
          · intro j' hj'
            omega
        · refine Or.inr ⟨j + 1, by simpa using hj, ?_, ?_, ?_, ?_, ?_⟩
          · have hidx : i + (j + 1) = (i + 1) + j := by omega
            rw [hidx]; exact hw
          · simpa using hval
          · have hidx : i + (j + 1) = (i + 1) + j := by omega
            rw [hidx]; exact hfreq
          · exact lt_trans hgt hlt
          · intro j' hj' hw'
            match j' with
            | 0 => simpa using hlt
            | j' + 1 =>
              have hidx : i + (j' + 1) = (i + 1) + j' := by omega
              rw [hidx] at hw'
              simpa using hstrict j' (by omega) hw'
    · have hr : getMaxAmplitudeFreqGo step mF MF i (a :: rest) mf ma =
          getMaxAmplitudeFreqGo step mF MF (i + 1) rest mf ma := by
        simp only [getMaxAmplitudeFreqGo]
        exact if_neg hc
      obtain ⟨ih1, ih2, ih3⟩ := ih (i + 1) mf ma
      rw [hr]
      have hskip : freqInWindow mF MF (binFreq step i) = true → a ≤ ma := by
        intro hw
        by_contra hgt
        exact hc (by simp [hw, lt_of_not_le hgt])
      refine ⟨ih1, ?_, ?_⟩
      · intro j hj hw
        match j with
        | 0 =>
          have : a ≤ ma := hskip (by simpa using hw)
          simpa using le_trans this ih1
        | j + 1 =>
          have hidx : i + (j + 1) = (i + 1) + j := by omega
          rw [hidx] at hw
          simpa using ih2 j (by simpa using hj) hw
      · rcases ih3 with heq | ⟨j, hj, hw, hval, hfreq, hlt, hstrict⟩
        · exact Or.inl heq
        · refine Or.inr ⟨j + 1, by simpa using hj, ?_, ?_, ?_, hlt, ?_⟩
          · have hidx : i + (j + 1) = (i + 1) + j := by omega
            rw [hidx]; exact hw
          · simpa using hval
          · have hidx : i + (j + 1) = (i + 1) + j := by omega
            rw [hidx]; exact hfreq
          · intro j' hj' hw'
            match j' with
            | 0 =>
              have : a ≤ ma := hskip (by simpa using hw')
              simpa using lt_of_le_of_lt this hlt
            | j' + 1 =>
              have hidx : i + (j' + 1) = (i + 1) + j' := by omega
              rw [hidx] at hw'
              simpa using hstrict j' (by omega) hw'

/-- C5: `getMaxAmplitudeFreq` is total and returns, among the bins with
frequency `i * step` inside the window, the pair with the strictly maximal
amplitude, breaking ties in favor of the first (lowest-index, hence
lowest-frequency) bin; if no bin qualifies — in particular when every
in-window amplitude is zero, under any bounds — it returns
`{frequency := 0, amplitude := 0}`. -/
theorem getMaxAmplitudeFreq_spec (data : List ℚ) (step : ℚ)
    (minFreq maxFreq : Option ℚ) :
    (∀ j, j < data.length → freqInWindow minFreq maxFreq (binFreq step j) = true →
      data.getD j 0 ≤ (getMaxAmplitudeFreq data step minFreq maxFreq).amplitude)
  ∧ (0 < (getMaxAmplitudeFreq data step minFreq maxFreq).amplitude →
      ∃ j, j < data.length
        ∧ freqInWindow minFreq maxFreq (binFreq step j) = true
        ∧ data.getD j 0 = (getMaxAmplitudeFreq data step minFreq maxFreq).amplitude
        ∧ (getMaxAmplitudeFreq data step minFreq maxFreq).frequency = binFreq step j
        ∧ ∀ j', j' < j → freqInWindow minFreq maxFreq (binFreq step j') = true →
            data.getD j' 0 < (getMaxAmplitudeFreq data step minFreq maxFreq).amplitude)
  ∧ ((∀ j, j < data.length → freqInWindow minFreq maxFreq (binFreq step j) = true →
        data.getD j 0 ≤ 0) →
      getMaxAmplitudeFreq data step minFreq maxFreq = ⟨0, 0⟩) := by
  obtain ⟨h1, h2, h3⟩ := getMaxAmplitudeFreqGo_spec step minFreq maxFreq data 0 0 0
  refine ⟨?_, ?_, ?_⟩
  · intro j hj hw
    have := h2 j hj (by simpa using hw)
    simpa [getMaxAmplitudeFreq] using this
  · intro hpos
    rcases h3 with heq | ⟨j, hj, hw, hval, hfreq, hlt, hstrict⟩
    · rw [getMaxAmplitudeFreq] at hpos
      simp [heq] at hpos
    · refine ⟨j, hj, by simpa using hw, by simpa [getMaxAmplitudeFreq] using hval,
        by simpa [getMaxAmplitudeFreq] using hfreq, ?_⟩
      intro j' hj' hw'
      have := hstrict j' hj' (by simpa using hw')
      simpa [getMaxAmplitudeFreq] using this
  · intro hzero
    rcases h3 with heq | ⟨j, hj, hw, hval, hfreq, hlt, hstrict⟩
    · simp [getMaxAmplitudeFreq, heq]
    · have hle := hzero j hj (by simpa using hw)
      rw [hval] at hle
      exact absurd hlt (not_lt.mpr hle)

/-- Witness for C5: an all-zero four-bin spectrum at 100 Hz per bin with the
window [50, 250] yields the zero peak. -/
theorem getMaxAmplitudeFreq_spec_witness :
    getMaxAmplitudeFreq [0, 0, 0, 0] 100 (some 50) (some 250) = ⟨0, 0⟩ := by
  apply (getMaxAmplitudeFreq_spec [0, 0, 0, 0] 100 (some 50) (some 250)).2.2
  intro j hj hw
  simp only [List.length_cons, List.length_nil] at hj
  interval_cases j <;> norm_num

/-! ## Physics Engine and game loop (`Arkanoid.tsx`) -/

/-- `BRICK_ROWS` in `Arkanoid.tsx`. -/
def BRICK_ROWS : ℕ := 5

/-- `BRICK_COLUMNS` in `Arkanoid.tsx`. -/
def BRICK_COLUMNS : ℕ := 8

/-- `BRICK_WIDTH = CANVAS_WIDTH / 10`. -/
def BRICK_WIDTH : ℚ := CANVAS_WIDTH / 10

/-- `BRICK_HEIGHT = CANVAS_HEIGHT / 30`. -/
def BRICK_HEIGHT : ℚ := CANVAS_HEIGHT / 30

/-- `BRICK_PADDING = PADDLE_HEIGHT`. -/
def BRICK_PADDING : ℚ := PADDLE_HEIGHT

/-- `BRICK_OFFSET_TOP = BRICK_PADDING`. -/
def BRICK_OFFSET_TOP : ℚ := BRICK_PADDING

/-- `BRICK_OFFSET_LEFT = CANVAS_WIDTH - BRICK_COLUMNS * (BRICK_WIDTH + BRICK_PADDING)`. -/
def BRICK_OFFSET_LEFT : ℚ :=
  CANVAS_WIDTH - (BRICK_COLUMNS : ℚ) * (BRICK_WIDTH + BRICK_PADDING)

/-- The fixed paddle y: `CANVAS_HEIGHT - PADDLE_HEIGHT - 10`. -/
def paddleY : ℚ := CANVAS_HEIGHT - PADDLE_HEIGHT - 10

/-- The ball: position and velocity, replaced wholesale each tick. -/
structure Ball where
  x : ℚ
  y : ℚ
  dx : ℚ
  dy : ℚ
deriving DecidableEq, Repr

/-- One brick of the grid; `status` is `1` while alive and `0` once dead. -/
structure Brick where
  x : ℚ
  y : ℚ
  status : ℕ
deriving DecidableEq, Repr, Inhabited

/-- The state owned by the game loop: paddle x (a JS number, possibly
non-finite), ball, brick grid and score. -/
structure GameState where
  paddleX : Option ℚ
  ball : Ball
  bricks : List Brick
  score : ℕ
deriving Repr

/-- `generateBricks`: the column-major 8×5 grid, all bricks alive. -/
def generateBricks : List Brick :=
  (List.range BRICK_COLUMNS).flatMap (fun c =>
    (List.range BRICK_ROWS).map (fun r =>
      { x := (c : ℚ) * (BRICK_WIDTH + BRICK_PADDING) + BRICK_OFFSET_LEFT
        y := (r : ℚ) * (BRICK_HEIGHT + BRICK_PADDING) + BRICK_OFFSET_TOP
        status := 1 }))

/-- `updateBallPosition`: integrate, reflect off the side walls and the top
wall, then reflect off the paddle when the ball is moving downward through
it.  The game-over callback (fired when the ball passes the bottom edge)
does not modify the physics state.  A non-finite paddle x (`none`) never
satisfies the strict two-sided paddle test, matching JS comparisons against
NaN/±Infinity. -/
def updateBallPosition (paddleX : Option ℚ) (b : Ball) : Ball :=
  let newX := b.x + b.dx
  let newY := b.y + b.dy
  let newDx := if newX + BALL_RADIUS > CANVAS_WIDTH ∨ newX - BALL_RADIUS < 0
    then -b.dx else b.dx
  let newDy1 := if newY - BALL_RADIUS < 0 then -b.dy else b.dy
  let paddleHit : Bool :=
    match paddleX with
    | none => false
    | some px =>
      decide (newY + BALL_RADIUS > paddleY) && decide (newX > px) &&
        decide (newX < px + PADDLE_WIDTH) && decide (newDy1 > 0)
  let newDy := if paddleHit then -newDy1 else newDy1
  { x := newX, y := newY, dx := newDx, dy := newDy }

/-- The per-brick test of `checkBrickCollision`: the ball's center lies
strictly inside the brick's rectangle. -/
def brickHit (ballX ballY : ℚ) (brick : Brick) : Bool :=
  decide (ballX > brick.x) && decide (ballX < brick.x + BRICK_WIDTH) &&
    decide (ballY > brick.y) && decide (ballY < brick.y + BRICK_HEIGHT)

/-- The loop of `checkBrickCollision`: for each still-alive brick containing
the ball's center, negate `dy` (again), kill the brick and increment the
score. -/
def checkBrickCollisionGo (ballX ballY : ℚ) :
    List Brick → ℚ → ℕ → List Brick × ℚ × ℕ
  | [], dy, score => ([], dy, score)
  | brick :: rest, dy, score =>
    if brick.status == 1 && brickHit ballX ballY brick then
      let r := checkBrickCollisionGo ballX ballY rest (-dy) (score + 1)
      ({ brick with status := 0 } :: r.1, r.2)
    else
      let r := checkBrickCollisionGo ballX ballY rest dy score
      (brick :: r.1, r.2)

/-- Number of still-alive bricks. -/
def aliveBricks (bricks : List Brick) : ℕ :=
  bricks.countP (fun brick => brick.status == 1)

/-- The paddle position after `updatePaddlePosition` ran on this tick's
peak (sampled by `getMaxAmplitudeFreq` over the calibrated window). -/
def tickPaddleX (step minFreq maxFreq amplitudeThreshold : ℚ) (data : List ℚ)
    (s : GameState) : Option ℚ :=
  updatePaddlePosition minFreq maxFreq amplitudeThreshold
    (getMaxAmplitudeFreq data step (some minFreq) (some maxFreq)) s.paddleX

/-- The ball after `updateBallPosition` ran on this tick. -/
def tickBall (step minFreq maxFreq amplitudeThreshold : ℚ) (data : List ℚ)
    (s : GameState) : Ball :=
  updateBallPosition (tickPaddleX step minFreq maxFreq amplitudeThreshold data s)
    s.ball

/-- One iteration of `gameLoop`: sample the peak in the calibrated window,
update the paddle, integrate the ball, then resolve brick collisions (which
may flip `dy` and bump the score).  `data` is this tick's spectrum
snapshot. -/
def tick (step minFreq maxFreq amplitudeThreshold : ℚ) (data : List ℚ)
    (s : GameState) : GameState :=
  let ball1 := tickBall step minFreq maxFreq amplitudeThreshold data s
  let r := checkBrickCollisionGo ball1.x ball1.y s.bricks ball1.dy s.score
  { paddleX := tickPaddleX step minFreq maxFreq amplitudeThreshold data s
    ball := { ball1 with dy := r.2.1 }
    bricks := r.1
    score := r.2.2 }

/-- The state created at game start in `Arkanoid.tsx`. -/
def initialGameState : GameState :=
  { paddleX := some (CANVAS_WIDTH / 2 - PADDLE_WIDTH / 2)
    ball := { x := CANVAS_WIDTH / 2, y := CANVAS_HEIGHT - 30
              dx := PADDLE_HEIGHT / 6, dy := PADDLE_HEIGHT / (-5) }
    bricks := generateBricks
    score := 0 }

/-- A game session: fold `tick` over the per-tick spectrum snapshots. -/
def run (step minFreq maxFreq amplitudeThreshold : ℚ) :
    List (List ℚ) → GameState → GameState
  | [], s => s
  | d :: ds, s =>
    run step minFreq maxFreq amplitudeThreshold ds
      (tick step minFreq maxFreq amplitudeThreshold d s)

/-! ### Brick collision: master characterization -/

theorem checkBrickCollisionGo_spec (ballX ballY : ℚ) (bricks : List Brick) :
    ∀ (dy : ℚ) (score : ℕ),
    (checkBrickCollisionGo ballX ballY bricks dy score).1.length = bricks.length
  ∧ (checkBrickCollisionGo ballX ballY bricks dy score).2.1 =
      (-1) ^ bricks.countP (fun brick => brick.status == 1 && brickHit ballX ballY brick) * dy
  ∧ (checkBrickCollisionGo ballX ballY bricks dy score).2.2 =
      score + bricks.countP (fun brick => brick.status == 1 && brickHit ballX ballY brick)
  ∧ aliveBricks (checkBrickCollisionGo ballX ballY bricks dy score).1
      + bricks.countP (fun brick => brick.status == 1 && brickHit ballX ballY brick)
      = aliveBricks bricks
  ∧ ∀ j, j < bricks.length →
      (checkBrickCollisionGo ballX ballY bricks dy score).1.getD j default =
        (if (bricks.getD j default).status == 1 &&
              brickHit ballX ballY (bricks.getD j default)
         then { bricks.getD j default with status := 0 }
         else bricks.getD j default) := by
  induction bricks with
  | nil =>
    intro dy score
    refine ⟨rfl, by simp [checkBrickCollisionGo], by simp [checkBrickCollisionGo], ?_, ?_⟩
    · simp [checkBrickCollisionGo]
    · intro j hj
      simp at hj
  | cons brick rest ih =>
    intro dy score
    by_cases hc : (brick.status == 1 && brickHit ballX ballY brick) = true
    · have hr : checkBrickCollisionGo ballX ballY (brick :: rest) dy score =
          ({ brick with status := 0 } ::
              (checkBrickCollisionGo ballX ballY rest (-dy) (score + 1)).1,
            (checkBrickCollisionGo ballX ballY rest (-dy) (score + 1)).2) := by
        simp only [checkBrickCollisionGo]
        rw [if_pos hc]
      obtain ⟨ihlen, ihdy, ihscore, ihalive, ihpt⟩ := ih (-dy) (score + 1)
      have hstatus : brick.status = 1 := by
        have := (Bool.and_eq_true _ _).mp hc |>.1
        simpa using this
      refine ⟨?_, ?_, ?_, ?_, ?_⟩
      · simp [hr, ihlen]
      · rw [hr]
        simp only [List.countP_cons, hc, if_pos]
        rw [ihdy]
        ring
      · rw [hr]
        simp only [List.countP_cons, hc, if_pos]
        rw [ihscore]
        omega
      · rw [hr]
        simp only [List.countP_cons, hc, if_pos]
        have hhead : aliveBricks ({ brick with status := 0 } ::
            (checkBrickCollisionGo ballX ballY rest (-dy) (score + 1)).1) =
            aliveBricks (checkBrickCollisionGo ballX ballY rest (-dy) (score + 1)).1 := by
          simp [aliveBricks, List.countP_cons]
        have htail : aliveBricks (brick :: rest) = aliveBricks rest + 1 := by
          simp [aliveBricks, List.countP_cons, hstatus]
        rw [hhead, htail]
        omega
      · intro j hj
        match j with
        | 0 => simp [hr, hc]
        | j + 1 =>
          have hj' : j < rest.length := by simpa using hj
          simpa [hr] using ihpt j hj'
    · have hr : checkBrickCollisionGo ballX ballY (brick :: rest) dy score =
          (brick :: (checkBrickCollisionGo ballX ballY rest dy score).1,
            (checkBrickCollisionGo ballX ballY rest dy score).2) := by
        simp only [checkBrickCollisionGo]
        rw [if_neg hc]
      obtain ⟨ihlen, ihdy, ihscore, ihalive, ihpt⟩ := ih dy score
      have hcount : (brick :: rest).countP
          (fun brick => brick.status == 1 && brickHit ballX ballY brick) =
          rest.countP (fun brick => brick.status == 1 && brickHit ballX ballY brick) := by
        simp [List.countP_cons, hc]
      refine ⟨?_, ?_, ?_, ?_, ?_⟩
      · simp [hr, ihlen]
      · rw [hr, hcount]
        exact ihdy
      · rw [hr, hcount]
        exact ihscore
      · rw [hr, hcount]
        have hhead : aliveBricks (brick ::
            (checkBrickCollisionGo ballX ballY rest dy score).1) =
            aliveBricks (checkBrickCollisionGo ballX ballY rest dy score).1 +
              (if brick.status == 1 then 1 else 0) := by
          simp [aliveBricks, List.countP_cons]
        have htail : aliveBricks (brick :: rest) = aliveBricks rest +
            (if brick.status == 1 then 1 else 0) := by
          simp [aliveBricks, List.countP_cons]
        rw [hhead, htail]
        omega
      · intro j hj
        match j with
        | 0 => simp [hr, hc]
        | j + 1 =>
          have hj' : j < rest.length := by simpa using hj
          simpa [hr] using ihpt j hj'

theorem tick_bricks_eq (step minFreq maxFreq amplitudeThreshold : ℚ)
    (data : List ℚ) (s : GameState) :
    (tick step minFreq maxFreq amplitudeThreshold data s).bricks =
      (checkBrickCollisionGo
        (tickBall step minFreq maxFreq amplitudeThreshold data s).x
        (tickBall step minFreq maxFreq amplitudeThreshold data s).y
        s.bricks
        (tickBall step minFreq maxFreq amplitudeThreshold data s).dy
        s.score).1 := rfl

theorem tick_score_eq (step minFreq maxFreq amplitudeThreshold : ℚ)
    (data : List ℚ) (s : GameState) :
    (tick step minFreq maxFreq amplitudeThreshold data s).score =
      (checkBrickCollisionGo
        (tickBall step minFreq maxFreq amplitudeThreshold data s).x
        (tickBall step minFreq maxFreq amplitudeThreshold data s).y
        s.bricks
        (tickBall step minFreq maxFreq amplitudeThreshold data s).dy
        s.score).2.2 := rfl

theorem tick_brick_facts (step minFreq maxFreq amplitudeThreshold : ℚ)
    (data : List ℚ) (s : GameState) :
    (tick step minFreq maxFreq amplitudeThreshold data s).score +
      aliveBricks (tick step minFreq maxFreq amplitudeThreshold data s).bricks =
      s.score + aliveBricks s.bricks
  ∧ aliveBricks (tick step minFreq maxFreq amplitudeThreshold data s).bricks ≤
      aliveBricks s.bricks
  ∧ ∀ j, j < s.bricks.length → (s.bricks.getD j default).status = 0 →
      ((tick step minFreq maxFreq amplitudeThreshold data s).bricks.getD j
        default).status = 0 := by
  obtain ⟨hlen, hdy, hscore, halive, hpt⟩ :=
    checkBrickCollisionGo_spec
      (tickBall step minFreq maxFreq amplitudeThreshold data s).x
      (tickBall step minFreq maxFreq amplitudeThreshold data s).y
      s.bricks
      (tickBall step minFreq maxFreq amplitudeThreshold data s).dy
      s.score
  rw [tick_bricks_eq, tick_score_eq]
  refine ⟨?_, ?_, ?_⟩
  · rw [hscore]
    omega
  · omega
  · intro j hj h0
    rw [hpt j hj]
    split
    · rfl
    · exact h0

theorem run_score_alive (step minFreq maxFreq amplitudeThreshold : ℚ)
    (inputs : List (List ℚ)) :
    ∀ s : GameState,
      (run step minFreq maxFreq amplitudeThreshold inputs s).score +
        aliveBricks (run step minFreq maxFreq amplitudeThreshold inputs s).bricks =
        s.score + aliveBricks s.bricks := by
  induction inputs with
  | nil => intro s; rfl
  | cons d ds ih =>
    intro s
    simp only [run]
    rw [ih (tick step minFreq maxFreq amplitudeThreshold d s)]
    exact (tick_brick_facts step minFreq maxFreq amplitudeThreshold d s).1

/-- C6: at every tick of a game session starting from `initialGameState`,
the number of alive bricks is non-increasing, no brick transitions from
dead back to alive, and the score equals the initial brick count (40) minus
the current alive-brick count (stated additively: `score + alive = 40`). -/
theorem game_brick_invariants (step minFreq maxFreq amplitudeThreshold : ℚ)
    (inputs : List (List ℚ)) (data : List ℚ) :
    aliveBricks (tick step minFreq maxFreq amplitudeThreshold data
        (run step minFreq maxFreq amplitudeThreshold inputs initialGameState)).bricks
      ≤ aliveBricks
          (run step minFreq maxFreq amplitudeThreshold inputs initialGameState).bricks
  ∧ (∀ j, j < (run step minFreq maxFreq amplitudeThreshold inputs
        initialGameState).bricks.length →
      ((run step minFreq maxFreq amplitudeThreshold inputs
          initialGameState).bricks.getD j default).status = 0 →
      ((tick step minFreq maxFreq amplitudeThreshold data
          (run step minFreq maxFreq amplitudeThreshold inputs
            initialGameState)).bricks.getD j default).status = 0)
  ∧ (run step minFreq maxFreq amplitudeThreshold inputs initialGameState).score +
      aliveBricks
        (run step minFreq maxFreq amplitudeThreshold inputs initialGameState).bricks
      = aliveBricks initialGameState.bricks
  ∧ aliveBricks initialGameState.bricks = 40 := by
  refine ⟨(tick_brick_facts step minFreq maxFreq amplitudeThreshold data _).2.1,
    (tick_brick_facts step minFreq maxFreq amplitudeThreshold data _).2.2, ?_, ?_⟩
  · rw [run_score_alive step minFreq maxFreq amplitudeThreshold inputs initialGameState]
    simp [initialGameState]
  · decide

/-- Witness for C6: on the empty session the score-plus-alive invariant is
`0 + 40 = 40`, and one further tick cannot increase the alive count. -/
theorem game_brick_invariants_witness :
    (run 0 0 0 0 [] initialGameState).score +
        aliveBricks (run 0 0 0 0 [] initialGameState).bricks = 40
  ∧ aliveBricks (tick 0 0 0 0 [] (run 0 0 0 0 [] initialGameState)).bricks ≤
      aliveBricks (run 0 0 0 0 [] initialGameState).bricks := by
  obtain ⟨h1, h2, h3, h4⟩ := game_brick_invariants 0 0 0 0 [] []
  exact ⟨h3.trans h4, h1⟩

/-- C8: in one brick-collision pass, each of the `k` still-alive bricks
containing the ball's center is resolved individually: `dy` is negated `k`
times (net factor `(-1)^k`), the score increases by exactly `k`, the alive
count drops by exactly `k`, and every hit brick becomes dead. -/
theorem checkBrickCollision_simultaneous (ballX ballY dy : ℚ) (score : ℕ)
    (bricks : List Brick) :
    (checkBrickCollisionGo ballX ballY bricks dy score).2.1 =
      (-1) ^ bricks.countP
          (fun brick => brick.status == 1 && brickHit ballX ballY brick) * dy
  ∧ (checkBrickCollisionGo ballX ballY bricks dy score).2.2 =
      score + bricks.countP
          (fun brick => brick.status == 1 && brickHit ballX ballY brick)
  ∧ aliveBricks (checkBrickCollisionGo ballX ballY bricks dy score).1 +
      bricks.countP (fun brick => brick.status == 1 && brickHit ballX ballY brick)
      = aliveBricks bricks
  ∧ ∀ j, j < bricks.length → (bricks.getD j default).status = 1 →
      brickHit ballX ballY (bricks.getD j default) = true →
      ((checkBrickCollisionGo ballX ballY bricks dy score).1.getD j
        default).status = 0 := by
  obtain ⟨hlen, hdy, hscore, halive, hpt⟩ :=
    checkBrickCollisionGo_spec ballX ballY bricks dy score
  refine ⟨hdy, hscore, halive, ?_⟩
  intro j hj h1 hh
  rw [hpt j hj]
  split
  · rfl
  · rename_i hcond
    exact absurd (by rw [h1, hh]; rfl) hcond

/-- Witness for C8: the ball center `(2, 2)` lies inside both bricks at
`(0, 0)` and `(1, 1)`; the pass flips `dy` twice (net unchanged), scores 2
and kills the first brick. -/
theorem checkBrickCollision_simultaneous_witness :
    (checkBrickCollisionGo 2 2 [⟨0, 0, 1⟩, ⟨1, 1, 1⟩] 3 0).2.1 = 3
  ∧ (checkBrickCollisionGo 2 2 [⟨0, 0, 1⟩, ⟨1, 1, 1⟩] 3 0).2.2 = 2
  ∧ ((checkBrickCollisionGo 2 2 [⟨0, 0, 1⟩, ⟨1, 1, 1⟩] 3 0).1.getD 0
      default).status = 0 := by
  obtain ⟨hdy, hscore, halive, hdead⟩ :=
    checkBrickCollision_simultaneous 2 2 3 0 [⟨0, 0, 1⟩, ⟨1, 1, 1⟩]
  have hhit0 : brickHit 2 2 ⟨0, 0, 1⟩ = true := by
    norm_num [brickHit, BRICK_WIDTH, BRICK_HEIGHT, CANVAS_WIDTH, CANVAS_HEIGHT]
  have hhit1 : brickHit 2 2 ⟨1, 1, 1⟩ = true := by
    norm_num [brickHit, BRICK_WIDTH, BRICK_HEIGHT, CANVAS_WIDTH, CANVAS_HEIGHT]
  have hk : ([⟨0, 0, 1⟩, ⟨1, 1, 1⟩] : List Brick).countP
      (fun brick => brick.status == 1 && brickHit 2 2 brick) = 2 := by
    simp [List.countP_cons, hhit0, hhit1]
  refine ⟨?_, ?_, ?_⟩
  · rw [hdy, hk]
    norm_num
  · rw [hscore, hk]
  · exact hdead 0 (by norm_num) rfl hhit0

/-! ### Wall reflection (C7)

The horizontal ball dynamics are driven entirely by `updateBallPosition`
(paddle and brick collisions only touch `dy`).  With the concrete constants
of `Arkanoid.tsx` (`BALL_RADIUS = 5`, `CANVAS_WIDTH = 300`, horizontal speed
`PADDLE_HEIGHT / 6 = 5/6`), the reachable states satisfy an inductive
invariant that rules out flipping `dx` on two consecutive ticks. -/

theorem tickBall_x (step minFreq maxFreq amplitudeThreshold : ℚ) (data : List ℚ)
    (s : GameState) :
    (tickBall step minFreq maxFreq amplitudeThreshold data s).x =
      s.ball.x + s.ball.dx := rfl

theorem tickBall_dx (step minFreq maxFreq amplitudeThreshold : ℚ) (data : List ℚ)
    (s : GameState) :
    (tickBall step minFreq maxFreq amplitudeThreshold data s).dx =
      if s.ball.x + s.ball.dx + BALL_RADIUS > CANVAS_WIDTH ∨
          s.ball.x + s.ball.dx - BALL_RADIUS < 0
      then -s.ball.dx else s.ball.dx := rfl

theorem tick_ball_x (step minFreq maxFreq amplitudeThreshold : ℚ) (data : List ℚ)
    (s : GameState) :
    (tick step minFreq maxFreq amplitudeThreshold data s).ball.x =
      s.ball.x + s.ball.dx := rfl

theorem tick_ball_dx (step minFreq maxFreq amplitudeThreshold : ℚ) (data : List ℚ)
    (s : GameState) :
    (tick step minFreq maxFreq amplitudeThreshold data s).ball.dx =
      (tickBall step minFreq maxFreq amplitudeThreshold data s).dx := rfl

/-- Inductive invariant for the horizontal motion: the horizontal speed is
the constant `5/6`; whenever the ball sits inside a wall band its velocity
already points back into the canvas; and the ball never sits deeper than
one step inside a band. -/
def BallInv (b : Ball) : Prop :=
  (b.dx = 5 / 6 ∨ b.dx = -(5 / 6))
  ∧ (b.x - 5 < 0 → b.dx = 5 / 6)
  ∧ (b.x + 5 > 300 → b.dx = -(5 / 6))
  ∧ 5 - 5 / 6 ≤ b.x
  ∧ b.x ≤ 295 + 5 / 6

theorem BALL_RADIUS_eq : BALL_RADIUS = 5 := by
  norm_num [BALL_RADIUS, PADDLE_HEIGHT, CANVAS_HEIGHT]

theorem CANVAS_WIDTH_eq : CANVAS_WIDTH = 300 := rfl

theorem ballInv_initial : BallInv initialGameState.ball := by
  norm_num [BallInv, initialGameState, PADDLE_HEIGHT, CANVAS_HEIGHT,
    CANVAS_WIDTH]

theorem ballInv_tick (step minFreq maxFreq amplitudeThreshold : ℚ)
    (data : List ℚ) (s : GameState) (h : BallInv s.ball) :
    BallInv (tick step minFreq maxFreq amplitudeThreshold data s).ball := by
  obtain ⟨h1, h2, h3, h4, h5⟩ := h
  have hx : (tick step minFreq maxFreq amplitudeThreshold data s).ball.x =
      s.ball.x + s.ball.dx := tick_ball_x step minFreq maxFreq amplitudeThreshold data s
  have hdx : (tick step minFreq maxFreq amplitudeThreshold data s).ball.dx =
      if s.ball.x + s.ball.dx + 5 > 300 ∨ s.ball.x + s.ball.dx - 5 < 0
      then -s.ball.dx else s.ball.dx := by
    rw [tick_ball_dx, tickBall_dx, BALL_RADIUS_eq, CANVAS_WIDTH_eq]
  by_cases hc : s.ball.x + s.ball.dx + 5 > 300 ∨ s.ball.x + s.ball.dx - 5 < 0
  · rw [if_pos hc] at hdx
    rcases h1 with hd | hd
    · have hnleft : ¬(s.ball.x + s.ball.dx - 5 < 0) := by rw [hd]; linarith
      have hright : s.ball.x + s.ball.dx + 5 > 300 := hc.resolve_right hnleft
      have hxle : s.ball.x ≤ 295 := by
        by_contra hgt
        have := h3 (by linarith)
        rw [hd] at this
        norm_num at this
      refine ⟨Or.inr (by rw [hdx, hd]), ?_, ?_, ?_, ?_⟩
      · intro hlt
        rw [hx] at hlt
        linarith
      · intro _
        rw [hdx, hd]
      · rw [hx]
        linarith
      · rw [hx, hd]
        linarith
    · have hnright : ¬(s.ball.x + s.ball.dx + 5 > 300) := by rw [hd]; linarith
      have hleft : s.ball.x + s.ball.dx - 5 < 0 := hc.resolve_left hnright
      have hxge : ¬(s.ball.x - 5 < 0) := by
        intro hlt
        have := h2 hlt
        rw [hd] at this
        norm_num at this
      refine ⟨Or.inl (by rw [hdx, hd]; ring), ?_, ?_, ?_, ?_⟩
      · intro _
        rw [hdx, hd]
        ring
      · intro hgt
        rw [hx] at hgt
        linarith
      · rw [hx, hd]
        linarith
      · rw [hx, hd]
        linarith
  · rw [if_neg hc] at hdx
    push_neg at hc
    obtain ⟨hcle, hcge⟩ := hc
    refine ⟨by rw [hdx]; exact h1, ?_, ?_, ?_, ?_⟩
    · intro hlt
      rw [hx] at hlt
      linarith
    · intro hgt
      rw [hx] at hgt
      linarith
    · rw [hx]
      linarith
    · rw [hx]
      linarith

theorem ballInv_run (step minFreq maxFreq amplitudeThreshold : ℚ)
    (inputs : List (List ℚ)) :
    ∀ s : GameState, BallInv s.ball →
      BallInv (run step minFreq maxFreq amplitudeThreshold inputs s).ball := by
  induction inputs with
  | nil => intro s h; exact h
  | cons d ds ih =>
    intro s h
    simp only [run]
    exact ih _ (ballInv_tick step minFreq maxFreq amplitudeThreshold d s h)

theorem tick_no_double_flip (step minFreq maxFreq amplitudeThreshold : ℚ)
    (d1 d2 : List ℚ) (s : GameState) (h : BallInv s.ball)
    (hflip : (tick step minFreq maxFreq amplitudeThreshold d1 s).ball.dx =
      -s.ball.dx) :
    (tick step minFreq maxFreq amplitudeThreshold d2
        (tick step minFreq maxFreq amplitudeThreshold d1 s)).ball.dx =
      (tick step minFreq maxFreq amplitudeThreshold d1 s).ball.dx := by
  obtain ⟨h1, h2, h3, h4, h5⟩ := h
  have hdxne : s.ball.dx ≠ 0 := by
    rcases h1 with hd | hd <;> rw [hd] <;> norm_num
  have hx1 : (tick step minFreq maxFreq amplitudeThreshold d1 s).ball.x =
      s.ball.x + s.ball.dx := tick_ball_x step minFreq maxFreq amplitudeThreshold d1 s
  have hdx1 : (tick step minFreq maxFreq amplitudeThreshold d1 s).ball.dx =
      if s.ball.x + s.ball.dx + 5 > 300 ∨ s.ball.x + s.ball.dx - 5 < 0
      then -s.ball.dx else s.ball.dx := by
    rw [tick_ball_dx, tickBall_dx, BALL_RADIUS_eq, CANVAS_WIDTH_eq]
  have hdx2 : (tick step minFreq maxFreq amplitudeThreshold d2
      (tick step minFreq maxFreq amplitudeThreshold d1 s)).ball.dx =
      if (tick step minFreq maxFreq amplitudeThreshold d1 s).ball.x +
            (tick step minFreq maxFreq amplitudeThreshold d1 s).ball.dx + 5 > 300 ∨
          (tick step minFreq maxFreq amplitudeThreshold d1 s).ball.x +
            (tick step minFreq maxFreq amplitudeThreshold d1 s).ball.dx - 5 < 0
      then -(tick step minFreq maxFreq amplitudeThreshold d1 s).ball.dx
      else (tick step minFreq maxFreq amplitudeThreshold d1 s).ball.dx := by
    rw [tick_ball_dx, tickBall_dx, BALL_RADIUS_eq, CANVAS_WIDTH_eq]
  by_cases hc : s.ball.x + s.ball.dx + 5 > 300 ∨ s.ball.x + s.ball.dx - 5 < 0
  · rw [if_pos hc] at hdx1
    have hback : (tick step minFreq maxFreq amplitudeThreshold d1 s).ball.x +
        (tick step minFreq maxFreq amplitudeThreshold d1 s).ball.dx = s.ball.x := by
      rw [hx1, hdx1]
      ring
    rw [hdx2, hback]
    rcases h1 with hd | hd
    · have hnleft : ¬(s.ball.x + s.ball.dx - 5 < 0) := by rw [hd]; linarith
      have hright : s.ball.x + s.ball.dx + 5 > 300 := hc.resolve_right hnleft
      have hxle : s.ball.x ≤ 295 := by
        by_contra hgt
        have := h3 (by linarith)
        rw [hd] at this
        norm_num at this
      rw [if_neg]
      push_neg
      constructor
      · linarith
      · linarith
    · have hnright : ¬(s.ball.x + s.ball.dx + 5 > 300) := by rw [hd]; linarith
      have hleft : s.ball.x + s.ball.dx - 5 < 0 := hc.resolve_left hnright
      have hxge : ¬(s.ball.x - 5 < 0) := by
        intro hlt
        have := h2 hlt
        rw [hd] at this
        norm_num at this
      rw [if_neg]
      push_neg
      constructor
      · linarith
      · linarith
  · rw [if_neg hc] at hdx1
    rw [hdx1] at hflip
    have : s.ball.dx = 0 := by linarith
    exact absurd this hdxne

/-- C7: along every game session from `initialGameState`, the sign of `dx`
is never flipped on two consecutive ticks: after a wall reflection the ball
is still inside the boundary region on the next tick, but its velocity
already points back into the canvas, so lingering there does not flip `dx`
again (one flip per crossing, no oscillation). -/
theorem wall_reflection_single_flip (step minFreq maxFreq amplitudeThreshold : ℚ)
    (inputs : List (List ℚ)) (d1 d2 : List ℚ) :
    ¬ ((tick step minFreq maxFreq amplitudeThreshold d1
          (run step minFreq maxFreq amplitudeThreshold inputs
            initialGameState)).ball.dx =
        -(run step minFreq maxFreq amplitudeThreshold inputs
            initialGameState).ball.dx
      ∧ (tick step minFreq maxFreq amplitudeThreshold d2
          (tick step minFreq maxFreq amplitudeThreshold d1
            (run step minFreq maxFreq amplitudeThreshold inputs
              initialGameState))).ball.dx =
        -(tick step minFreq maxFreq amplitudeThreshold d1
            (run step minFreq maxFreq amplitudeThreshold inputs
              initialGameState)).ball.dx) := by
  rintro ⟨hf1, hf2⟩
  have hinv : BallInv (run step minFreq maxFreq amplitudeThreshold inputs
      initialGameState).ball :=
    ballInv_run step minFreq maxFreq amplitudeThreshold inputs initialGameState
      ballInv_initial
  have hnd := tick_no_double_flip step minFreq maxFreq amplitudeThreshold d1 d2
    (run step minFreq maxFreq amplitudeThreshold inputs initialGameState) hinv hf1
  have hinv1 : BallInv (tick step minFreq maxFreq amplitudeThreshold d1
      (run step minFreq maxFreq amplitudeThreshold inputs initialGameState)).ball :=
    ballInv_tick step minFreq maxFreq amplitudeThreshold d1 _ hinv
  obtain ⟨h1, -⟩ := hinv1
  have hzero : (tick step minFreq maxFreq amplitudeThreshold d1
      (run step minFreq maxFreq amplitudeThreshold inputs
        initialGameState)).ball.dx = 0 := by
    rw [hnd] at hf2
    linarith
  rcases h1 with hd | hd <;> rw [hd] at hzero <;> norm_num at hzero

/-- Witness for C7 at a concrete session (empty input trace, empty spectra):
the two consecutive ticks after the initial state do not both flip `dx`. -/
theorem wall_reflection_single_flip_witness :
    ¬ ((tick 0 0 0 0 [] (run 0 0 0 0 [] initialGameState)).ball.dx =
        -(run 0 0 0 0 [] initialGameState).ball.dx
      ∧ (tick 0 0 0 0 []
          (tick 0 0 0 0 [] (run 0 0 0 0 [] initialGameState))).ball.dx =
        -(tick 0 0 0 0 [] (run 0 0 0 0 [] initialGameState)).ball.dx) :=
  wall_reflection_single_flip 0 0 0 0 [] [] []

end VoiceArkanoid
